import Mathlib

/-!
Shallow embedding of the core filtering/aggregation pipeline of
`src/src/App.js` (the ESP-TOC visualizer): the query engine
(`filteredData`), the facet index (`universities` / `departments` /
`programs`), the aggregator (`stats`), the currency formatter
(`formatCurrency`) and the clear-all reset (`clearFilters`).

Records decoded from the spreadsheet may lack any field (the decoder
omits keys for empty cells), so every field is embedded as an `Option`;
the JS optional chain `item.FIELD?.toLowerCase().includes(...)` becomes a
`match` on the option, and the tuition column (a JS number) is embedded
as a rational.
-/

namespace ESPTOC

/-- A spreadsheet row as consumed by the core logic.  Field names follow
the source columns; every field may be absent (`none`). -/
structure Record where
  NOMBRE_IES : Option String := none
  NOMBRE_DEL_PROGRAMA : Option String := none
  DEPARTAMENTO : Option String := none
  MUNICIPIO : Option String := none
  TIPO_CUBRIMIENTO : Option String := none
  VALOR_MATRICULA : Option ℚ := none
  deriving DecidableEq

/-- The four filter-state hooks of the component; the empty string means
"no constraint" for every field, as in the source. -/
structure FilterState where
  searchTerm : String := ""
  selectedUniversity : String := ""
  selectedDepartment : String := ""
  selectedProgram : String := ""
  deriving DecidableEq

/-- Character-level embedding of JS `String.prototype.toLowerCase`:
lower-case every character. -/
def lowerStr (s : String) : String :=
  String.mk (s.data.map Char.toLower)

/-- `leadMatch pat s` decides whether `pat` is an initial run of `s`
(character-level building block for the JS substring search). -/
def leadMatch : List Char → List Char → Bool
  | [], _ => true
  | _ :: _, [] => false
  | a :: ps, b :: s => a == b && leadMatch ps s

/-- `hasSubseq s pat` decides whether `pat` occurs contiguously inside
`s`: the embedding of JS `String.prototype.includes`. -/
def hasSubseq : List Char → List Char → Bool
  | [], pat => pat.isEmpty
  | b :: s, pat => leadMatch pat (b :: s) || hasSubseq s pat

/-- JS `s.includes(sub)`. -/
def jsIncludes (s sub : String) : Bool :=
  hasSubseq s.data sub.data

/-- One `item.FIELD?.toLowerCase().includes(term.toLowerCase())`
disjunct of the source: an absent field makes the optional chain
`undefined`, hence falsy — it never matches and never throws. -/
def fieldSearchHit (term : String) (f : Option String) : Bool :=
  match f with
  | none => false
  | some s => jsIncludes (lowerStr s) (lowerStr term)

/-- `matchesSearch` of `filteredData`: empty term, or a case-insensitive
substring hit on any of the four text columns. -/
def matchesSearch (term : String) (item : Record) : Bool :=
  term == "" ||
    fieldSearchHit term item.NOMBRE_IES ||
    fieldSearchHit term item.NOMBRE_DEL_PROGRAMA ||
    fieldSearchHit term item.DEPARTAMENTO ||
    fieldSearchHit term ( Record.MUNICIPIO item)

/-- The whole predicate passed to `data.filter(item => ...)` in
`filteredData`: search hit AND the three exact-match facet tests. -/
def rowMatches (fs : FilterState) (item : Record) : Bool :=
  matchesSearch fs.searchTerm item &&
    (fs.selectedUniversity == "" || item.NOMBRE_IES == some fs.selectedUniversity) &&
    (fs.selectedDepartment == "" || item.DEPARTAMENTO == some fs.selectedDepartment) &&
    (fs.selectedProgram == "" || item.NOMBRE_DEL_PROGRAMA == some fs.selectedProgram)

/-- `filteredData` of the source, as the pure function of its two
inputs. -/
def filterData (data : List Record) (fs : FilterState) : List Record :=
  data.filter (rowMatches fs)

/-- First-occurrence deduplication with accumulator `seen`: the
order-preserving set semantics of JS `[...new Set(xs)]`. -/
def setDedupAux [DecidableEq α] (seen : List α) : List α → List α
  | [] => []
  | x :: xs => if x ∈ seen then setDedupAux seen xs else x :: setDedupAux (x :: seen) xs

/-- JS `[...new Set(xs)]`. -/
def setDedup [DecidableEq α] (xs : List α) : List α :=
  setDedupAux [] xs

/-- The default JS `Array.prototype.sort` comparison on
string-or-undefined values: `undefined` elements are always placed last,
and strings compare by code units. -/
def jsLe : Option String → Option String → Bool
  | none, none => true
  | none, some _ => false
  | some _, none => true
  | some a, some b => decide (a ≤ b)

/-- Insert into a `jsLe`-sorted list. -/
def sortInsert (a : Option String) : List (Option String) → List (Option String)
  | [] => [a]
  | b :: t => if jsLe a b then a :: b :: t else b :: sortInsert a t

/-- Sorting by `jsLe`.  JS `Array.prototype.sort` is modelled by an
insertion sort: the facet lists are deduplicated before sorting, and on a
list of pairwise-distinct values `jsLe` is antisymmetric, so the sorted
permutation — hence the result of any correct sort — is unique. -/
def jsSort : List (Option String) → List (Option String)
  | [] => []
  | a :: t => sortInsert a (jsSort t)

/-- JS `[...new Set(xs)].sort()`. -/
def jsSetSort (xs : List (Option String)) : List (Option String) :=
  jsSort (setDedup xs)

/-- The `universities` facet list of the source (computed from the full
dataset, not the filtered view). -/
def universities (data : List Record) : List (Option String) :=
  jsSetSort (data.map (·.NOMBRE_IES))

/-- The `departments` facet list of the source. -/
def departments (data : List Record) : List (Option String) :=
  jsSetSort (data.map (·.DEPARTAMENTO))

/-- The `programs` facet list of the source. -/
def programs (data : List Record) : List (Option String) :=
  jsSetSort (data.map (·.NOMBRE_DEL_PROGRAMA))

/-- The summary-statistics object of the source. -/
structure Stats where
  totalPrograms : ℕ
  uniqueUniversities : ℕ
  uniqueDepartments : ℕ
  avgMatricula : ℚ
  deriving DecidableEq

/-- `stats` of the source over the filtered view: count, distinct-value
set sizes, and the guarded average of `VALOR_MATRICULA || 0`. -/
def stats (filteredData : List Record) : Stats :=
  { totalPrograms := filteredData.length
    uniqueUniversities := (setDedup (filteredData.map (·.NOMBRE_IES))).length
    uniqueDepartments := (setDedup (filteredData.map (·.DEPARTAMENTO))).length
    avgMatricula :=
      if filteredData.length > 0 then
        filteredData.foldl (fun sum item => sum + item.VALOR_MATRICULA.getD 0) 0
          / (filteredData.length : ℚ)
      else 0 }

/-- Helper for `formatCOP`: walking the reversed digit characters,
insert a grouping dot after every third digit (`k` counts the digits
already emitted in the current group). -/
def digitsGroupedAux : List Char → ℕ → List Char
  | [], _ => []
  | c :: cs, k =>
    if k == 3 then '.' :: c :: digitsGroupedAux cs 1
    else c :: digitsGroupedAux cs (k + 1)

/-- Modelled from the spec: the external
`Intl.NumberFormat('es-CO', {style:'currency', currency:'COP',
minimumFractionDigits:0})` collaborator, i.e. a grouped `es-CO` peso
string with zero fractional digits. -/
def formatCOP (v : ℚ) : String :=
  let n : ℤ := round v
  (if n < 0 then "-$ " else "$ ") ++
    String.mk ((digitsGroupedAux (Nat.repr n.natAbs).data.reverse 0).reverse)

/-- `formatCurrency` of the source: the JS falsy test `!value` (absent or
zero tuition) yields the fixed label, otherwise the formatted string. -/
def formatCurrency (value : Option ℚ) : String :=
  if value.getD 0 = 0 then "No disponible" else formatCOP (value.getD 0)

/-- `clearFilters` of the source: resets every filter field to empty. -/
def clearFilters (_ : FilterState) : FilterState := {}

/-- A single user interaction updating one filter field (the four
`set...` callbacks wired to the search box and dropdowns). -/
inductive FilterAction where
  | setSearch (v : String)
  | setUniversity (v : String)
  | setDepartment (v : String)
  | setProgram (v : String)

/-- Apply one field update to the filter state. -/
def applyAction (fs : FilterState) : FilterAction → FilterState
  | .setSearch v => { fs with searchTerm := v }
  | .setUniversity v => { fs with selectedUniversity := v }
  | .setDepartment v => { fs with selectedDepartment := v }
  | .setProgram v => { fs with selectedProgram := v }

/-- Record A of the spec's worked example. -/
def recA : Record :=
  { NOMBRE_IES := some "X", DEPARTAMENTO := some "R1", VALOR_MATRICULA := some 1000 }

/-- Record B of the spec's worked example. -/
def recB : Record :=
  { NOMBRE_IES := some "X", DEPARTAMENTO := some "R2", VALOR_MATRICULA := some 2000 }

/-- Record C of the spec's worked example (tuition missing). -/
def recC : Record :=
  { NOMBRE_IES := some "Y", DEPARTAMENTO := some "R1" }

/-- The spec's three-record example dataset. -/
def specDataset : List Record := [recA, recB, recC]

/-- Spec-side contiguous-substring relation: `pat` occurs in `s`. -/
def ContainsSub (s pat : List Char) : Prop :=
  ∃ u v, s = u ++ pat ++ v

/-- Spec-side search predicate on an optional field: the field is
present and the lowercased term occurs in its lowercased value. -/
def SpecSearchHit (term : String) (f : Option String) : Prop :=
  ∃ s, f = some s ∧ ContainsSub (lowerStr s).data (lowerStr term).data

theorem leadMatch_iff (p s : List Char) : leadMatch p s = true ↔ ∃ v, s = p ++ v := by
  induction p generalizing s with
  | nil => simp [leadMatch]
  | cons a ps ih =>
    cases s with
    | nil =>
      simp only [leadMatch, List.cons_append, Bool.false_eq_true, false_iff]
      rintro ⟨v, hv⟩
      exact List.noConfusion hv
    | cons b t =>
      simp only [leadMatch, Bool.and_eq_true, beq_iff_eq, ih, List.cons_append,
        List.cons.injEq]
      constructor
      · rintro ⟨rfl, v, rfl⟩
        exact ⟨v, rfl, rfl⟩
      · rintro ⟨v, rfl, rfl⟩
        exact ⟨rfl, v, rfl⟩

theorem hasSubseq_iff (s p : List Char) : hasSubseq s p = true ↔ ContainsSub s p := by
  induction s with
  | nil =>
    constructor
    · intro h
      have hp : p = [] := by simpa [hasSubseq, List.isEmpty_iff] using h
      exact ⟨[], [], by simp [hp]⟩
    · rintro ⟨u, v, h⟩
      have h' : u = [] ∧ p = [] ∧ v = [] := by
        simpa [List.append_eq_nil] using h.symm
      simp [hasSubseq, List.isEmpty_iff, h'.2.1]
  | cons b s ih =>
    rw [hasSubseq, Bool.or_eq_true, leadMatch_iff, ih]
    constructor
    · rintro (⟨v, hv⟩ | ⟨u, v, hv⟩)
      · exact ⟨[], v, by simpa using hv⟩
      · exact ⟨b :: u, v, by simp [hv]⟩
    · rintro ⟨u, v, h⟩
      cases u with
      | nil => exact Or.inl ⟨v, by simpa using h⟩
      | cons x u =>
        injection h with h1 h2
        exact Or.inr ⟨u, v, h2⟩

theorem fieldSearchHit_iff (t : String) (f : Option String) :
    fieldSearchHit t f = true ↔ SpecSearchHit t f := by
  cases f with
  | none => simp [fieldSearchHit, SpecSearchHit]
  | some s => simp [fieldSearchHit, SpecSearchHit, jsIncludes, hasSubseq_iff]

theorem jsLe_total (a b : Option String) : jsLe a b = true ∨ jsLe b a = true := by
  cases a <;> cases b
  · simp [jsLe]
  · simp [jsLe]
  · simp [jsLe]
  · simpa [jsLe] using le_total _ _

theorem jsLe_trans {a b c : Option String} (h1 : jsLe a b = true) (h2 : jsLe b c = true) :
    jsLe a c = true := by
  cases a <;> cases b <;> cases c <;> simp_all [jsLe]
  exact le_trans h1 h2

theorem mem_sortInsert (x a : Option String) (l : List (Option String)) :
    x ∈ sortInsert a l ↔ x = a ∨ x ∈ l := by
  induction l with
  | nil => simp [sortInsert]
  | cons b t ih =>
    rw [sortInsert]
    by_cases h : jsLe a b = true
    · rw [if_pos h]
      simp only [List.mem_cons]
    · rw [if_neg h]
      simp only [List.mem_cons, ih]
      tauto

theorem sortInsert_perm (a : Option String) (l : List (Option String)) :
    List.Perm (sortInsert a l) (a :: l) := by
  induction l with
  | nil => exact List.Perm.refl _
  | cons b t ih =>
    rw [sortInsert]
    by_cases h : jsLe a b = true
    · rw [if_pos h]
    · rw [if_neg h]
      exact (ih.cons b).trans (List.Perm.swap a b t)

theorem jsSort_perm (l : List (Option String)) : List.Perm (jsSort l) l := by
  induction l with
  | nil => exact List.Perm.refl _
  | cons a t ih => exact (sortInsert_perm a (jsSort t)).trans (ih.cons a)

theorem sorted_sortInsert (a : Option String) (l : List (Option String))
    (h : l.Pairwise (fun x y => jsLe x y = true)) :
    (sortInsert a l).Pairwise (fun x y => jsLe x y = true) := by
  induction l with
  | nil => simp [sortInsert]
  | cons b t ih =>
    rw [List.pairwise_cons] at h
    rw [sortInsert]
    by_cases hab : jsLe a b = true
    · rw [if_pos hab]
      refine List.Pairwise.cons ?_ (List.Pairwise.cons h.1 h.2)
      intro x hx
      rcases List.mem_cons.mp hx with rfl | hx
      · exact hab
      · exact jsLe_trans hab (h.1 x hx)
    · rw [if_neg hab]
      refine List.Pairwise.cons ?_ (ih h.2)
      intro x hx
      rcases (mem_sortInsert x a t).mp hx with rfl | hx
      · rcases jsLe_total x b with h' | h'
        · exact absurd h' hab
        · exact h'
      · exact h.1 x hx

theorem sorted_jsSort (l : List (Option String)) :
    (jsSort l).Pairwise (fun x y => jsLe x y = true) := by
  induction l with
  | nil => simp [jsSort]
  | cons a t ih => exact sorted_sortInsert a (jsSort t) ih

theorem mem_setDedupAux [DecidableEq α] (x : α) (seen l : List α) :
    x ∈ setDedupAux seen l ↔ x ∈ l ∧ x ∉ seen := by
  induction l generalizing seen with
  | nil => simp [setDedupAux]
  | cons y t ih =>
    rw [setDedupAux]
    by_cases h : y ∈ seen
    · rw [if_pos h, ih]
      simp only [List.mem_cons]
      constructor
      · rintro ⟨hx, hs⟩
        exact ⟨Or.inr hx, hs⟩
      · rintro ⟨rfl | hx, hs⟩
        · exact absurd h hs
        · exact ⟨hx, hs⟩
    · rw [if_neg h]
      simp only [List.mem_cons, ih]
      constructor
      · rintro (rfl | ⟨hx, hs⟩)
        · exact ⟨Or.inl rfl, h⟩
        · push_neg at hs
          exact ⟨Or.inr hx, hs.2⟩
      · rintro ⟨hxy | hx, hs⟩
        · exact Or.inl hxy
        · by_cases hxy : x = y
          · exact Or.inl hxy
          · exact Or.inr ⟨hx, by simp [List.mem_cons, hxy, hs]⟩

theorem nodup_setDedupAux [DecidableEq α] (seen l : List α) :
    (setDedupAux seen l).Nodup := by
  induction l generalizing seen with
  | nil => simp [setDedupAux]
  | cons y t ih =>
    rw [setDedupAux]
    by_cases h : y ∈ seen
    · rw [if_pos h]
      exact ih seen
    · rw [if_neg h]
      refine List.nodup_cons.mpr ⟨?_, ih (y :: seen)⟩
      intro hy
      rcases (mem_setDedupAux y (y :: seen) t).mp hy with ⟨_, hns⟩
      exact hns (List.mem_cons_self y seen)

theorem mem_setDedup [DecidableEq α] (x : α) (l : List α) :
    x ∈ setDedup l ↔ x ∈ l := by
  rw [setDedup, mem_setDedupAux]
  simp

theorem nodup_setDedup [DecidableEq α] (l : List α) : (setDedup l).Nodup :=
  nodup_setDedupAux [] l

theorem length_setDedup [DecidableEq α] (l : List α) :
    (setDedup l).length = l.toFinset.card := by
  have hfs : (setDedup l).toFinset = l.toFinset := by
    ext x
    simp [List.mem_toFinset, mem_setDedup]
  calc (setDedup l).length
      = (setDedup l).toFinset.card := (List.toFinset_card_of_nodup (nodup_setDedup l)).symm
    _ = l.toFinset.card := by rw [hfs]

theorem foldl_tuition (l : List Record) (a : ℚ) :
    l.foldl (fun sum it => sum + it.VALOR_MATRICULA.getD 0) a
      = a + (l.map (fun it => it.VALOR_MATRICULA.getD 0)).sum := by
  induction l generalizing a with
  | nil => simp
  | cons r t ih =>
    simp only [List.foldl_cons, List.map_cons, List.sum_cons, ih]
    ring

theorem jsSetSort_spec (xs : List (Option String)) :
    (jsSetSort xs).Nodup ∧
      (jsSetSort xs).Pairwise (fun a b => jsLe a b = true) ∧
      ∀ o, o ∈ jsSetSort xs ↔ o ∈ xs := by
  refine ⟨?_, sorted_jsSort _, ?_⟩
  · exact ((jsSort_perm _).nodup_iff).mpr (nodup_setDedup xs)
  · intro o
    rw [jsSetSort, (jsSort_perm _).mem_iff, mem_setDedup]

/-- C1: a record is in the output of `filterData` iff it is in the
dataset and all four predicates hold conjunctively — empty-or-substring
(case-insensitive, on any of the four text fields, a missing field never
matching) for the search term, and empty-or-exact-equality for each of
the three facet selections; on the spec's three-record example, the
search term `"r1"` selects records A and C but not B. -/
theorem C1_filter_semantics :
    (∀ (data : List Record) (fs : FilterState) (r : Record),
      r ∈ filterData data fs ↔
        r ∈ data ∧
        (fs.searchTerm = "" ∨ SpecSearchHit fs.searchTerm r.NOMBRE_IES ∨
          SpecSearchHit fs.searchTerm r.NOMBRE_DEL_PROGRAMA ∨
          SpecSearchHit fs.searchTerm r.DEPARTAMENTO ∨
          SpecSearchHit fs.searchTerm ( Record.MUNICIPIO r)) ∧
        (fs.selectedUniversity = "" ∨ r.NOMBRE_IES = some fs.selectedUniversity) ∧
        (fs.selectedDepartment = "" ∨ r.DEPARTAMENTO = some fs.selectedDepartment) ∧
        (fs.selectedProgram = "" ∨ r.NOMBRE_DEL_PROGRAMA = some fs.selectedProgram)) ∧
    filterData specDataset { searchTerm := "r1" } = [recA, recC] := by
  constructor
  · intro data fs r
    rw [filterData, List.mem_filter, rowMatches, matchesSearch]
    simp only [Bool.and_eq_true, Bool.or_eq_true, beq_iff_eq, fieldSearchHit_iff]
    tauto
  · decide

/-- C2 counterexample: the claim says missing/undefined field values are
excluded from the facet option set, but a dataset whose single record
lacks `NOMBRE_IES` yields the option list `[none]`, not the empty list
the claim requires. -/
theorem C2_counterexample :
    universities [({} : Record)] = [none] ∧
    ([none] : List (Option String)) ≠ [] := by
  exact ⟨by decide, by decide⟩

/-- C2 amended: each facet option list is computed from the full dataset
alone; it has no duplicates, is sorted ascending by ordinal string
comparison with the undefined value placed last (the JS sort-comparison
order `jsLe`), and its members are exactly the values — including a
single undefined member when some record lacks the field, which is kept,
not excluded — appearing across all records. -/
theorem C2_facet_options (data : List Record) :
    ((universities data).Nodup ∧
      (universities data).Pairwise (fun a b => jsLe a b = true) ∧
      ∀ o, o ∈ universities data ↔ o ∈ data.map (·.NOMBRE_IES)) ∧
    ((departments data).Nodup ∧
      (departments data).Pairwise (fun a b => jsLe a b = true) ∧
      ∀ o, o ∈ departments data ↔ o ∈ data.map (·.DEPARTAMENTO)) ∧
    ((programs data).Nodup ∧
      (programs data).Pairwise (fun a b => jsLe a b = true) ∧
      ∀ o, o ∈ programs data ↔ o ∈ data.map (·.NOMBRE_DEL_PROGRAMA)) :=
  ⟨jsSetSort_spec _, jsSetSort_spec _, jsSetSort_spec _⟩

/-- C3: for every dataset and filter state, the filtered view is an
order-preserving subsequence of the dataset — nothing added, nothing
duplicated, relative order preserved. -/
theorem C3_filter_subsequence (data : List Record) (fs : FilterState) :
    List.Sublist (filterData data fs) data :=
  List.filter_sublist data

/-- C4: on every non-empty view, the mean tuition is the sum of the
tuition values (missing contributing 0) divided by the view's length;
and the spec's example holds: filtering by institution `"X"` yields
`[A, B]` and its summary is count 2, 1 institution, 2 regions, mean
1500. -/
theorem C4_mean_tuition (view : List Record) (hv : view ≠ []) :
    (stats view).avgMatricula =
      (view.map (fun it => it.VALOR_MATRICULA.getD 0)).sum / (view.length : ℚ) ∧
    filterData specDataset { selectedUniversity := "X" } = [recA, recB] ∧
    stats [recA, recB] = ⟨2, 1, 2, 1500⟩ := by
  refine ⟨?_, by decide, ?_⟩
  · simp only [stats]
    rw [if_pos (List.length_pos.mpr hv), foldl_tuition]
    rw [zero_add]
  · simp [stats, setDedup, setDedupAux, recA, recB, Stats.mk.injEq]
    norm_num

/-- Witness for C4 at the concrete one-record view `[recA]`. -/
theorem C4_witness :
    (stats [recA]).avgMatricula =
      ([recA].map (fun it => it.VALOR_MATRICULA.getD 0)).sum / (([recA].length : ℕ) : ℚ) :=
  (C4_mean_tuition [recA] (by decide)).1

/-- C5: the all-empty filter state is an identity for `filterData`, and
the clear-all reset applied after any sequence of field selections
restores exactly the full dataset. -/
theorem C5_clear_identity (data : List Record) (fs : FilterState)
    (acts : List FilterAction) :
    filterData data {} = data ∧
    filterData data (clearFilters (acts.foldl applyAction fs)) = data := by
  have hid : filterData data {} = data := by
    rw [filterData]
    apply List.filter_eq_self.mpr
    intro r _
    simp [rowMatches, matchesSearch]
  exact ⟨hid, hid⟩

/-- Witness for C5 with the spec's dataset, a concrete starting state and
a concrete sequence of selections ending in the reset. -/
theorem C5_witness :
    filterData specDataset {} = specDataset ∧
    filterData specDataset
      (clearFilters ([FilterAction.setUniversity "X",
        FilterAction.setSearch "r1"].foldl applyAction {})) = specDataset :=
  C5_clear_identity specDataset {} [FilterAction.setUniversity "X", FilterAction.setSearch "r1"]

/-- C6: the summary of the empty view is all zeros; the mean is the
guarded 0, not a division by zero. -/
theorem C6_empty_summary : stats [] = ⟨0, 0, 0, 0⟩ := by
  simp [stats, setDedup, setDedupAux]

/-- C7 counterexample: the claim says an absent field is treated as
excluded for facet sets, but with record A plus a field-less record, the
institution facet list keeps an undefined member. -/
theorem C7_counterexample :
    universities [recA, ({} : Record)] = [some "X", none] ∧
    (none : Option String) ∈ universities [recA, ({} : Record)] := by
  exact ⟨by decide, by decide⟩

/-- C7 amended: every field access is total over records with arbitrary
missing fields — a missing text field never matches the search (the term
matches only when empty), contributes the single undefined member (not
exclusion) to the facet set, and a missing tuition counts as 0 in the
average; nothing raises, every operation returns a value. -/
theorem C7_missing_fields_total (t : String) (e : Record)
    (h1 : e.NOMBRE_IES = none) (h2 : e.NOMBRE_DEL_PROGRAMA = none)
    (h3 : e.DEPARTAMENTO = none) (h4 : Record.MUNICIPIO e = none)
    (h5 : e.VALOR_MATRICULA = none) :
    matchesSearch t e = (t == "") ∧
    universities [e] = [none] ∧
    (stats [e]).avgMatricula = 0 ∧
    (stats [e]).totalPrograms = 1 := by
  refine ⟨?_, ?_, ?_, rfl⟩
  · rw [matchesSearch, h1, h2, h3, h4]
    simp [fieldSearchHit]
  · rw [universities]
    simp [jsSetSort, setDedup, setDedupAux, jsSort, sortInsert, h1]
  · simp [stats, h5]

/-- Witness for C7 at the concrete all-missing record. -/
theorem C7_witness :
    matchesSearch "q" ({} : Record) = ("q" == "") ∧
    universities [({} : Record)] = [none] ∧
    (stats [({} : Record)]).avgMatricula = 0 ∧
    (stats [({} : Record)]).totalPrograms = 1 :=
  C7_missing_fields_total "q" {} rfl rfl rfl rfl rfl

/-- C8: the distinct-institution and distinct-region statistics are the
cardinalities of the sets of `institutionName` / `region` values in the
view, all missing values collapsing to the single `none` member of the
option type. -/
theorem C8_distinct_cardinalities (view : List Record) :
    (stats view).uniqueUniversities = (view.map (·.NOMBRE_IES)).toFinset.card ∧
    (stats view).uniqueDepartments = (view.map (·.DEPARTAMENTO)).toFinset.card :=
  ⟨length_setDedup _, length_setDedup _⟩

/-- C9: every falsy tuition value (absent or exactly 0) yields the fixed
"not available" label — in particular `formatCurrency 0` and
`formatCurrency undefined` coincide — and every other value yields the
(spec-modelled) zero-fraction localized peso string, e.g. `"$ 50.000"`
for 50000. -/
theorem C9_format_currency :
    (∀ v : Option ℚ, v.getD 0 = 0 → formatCurrency v = "No disponible") ∧
    formatCurrency (some 0) = formatCurrency none ∧
    (∀ q : ℚ, q ≠ 0 → formatCurrency (some q) = formatCOP q) ∧
    formatCurrency (some 50000) = "$ 50.000" := by
  have hlabel : ∀ v : Option ℚ, v.getD 0 = 0 → formatCurrency v = "No disponible" := by
    intro v hv
    rw [formatCurrency, if_pos hv]
  refine ⟨hlabel, ?_, ?_, ?_⟩
  · rw [hlabel (some 0) (by simp), hlabel none (by simp)]
  · intro q hq
    simp [formatCurrency, hq]
  · rw [formatCurrency, if_neg (by norm_num), formatCOP]
    norm_num
    decide

/-- Witness for C9 at concrete falsy and non-falsy inputs. -/
theorem C9_witness :
    formatCurrency none = "No disponible" ∧
    formatCurrency (some 3) = formatCOP 3 :=
  ⟨C9_format_currency.1 none rfl, C9_format_currency.2.2.1 3 (by norm_num)⟩

/-- C10: turning one facet selection from empty to any value only
narrows the view — the result is a subsequence of the view obtained with
that facet empty and the other fields unchanged, for each of the three
facets. -/
theorem C10_facet_narrowing (data : List Record) (fs : FilterState) (v : String) :
    List.Sublist (filterData data { fs with selectedUniversity := v })
      (filterData data { fs with selectedUniversity := "" }) ∧
    List.Sublist (filterData data { fs with selectedDepartment := v })
      (filterData data { fs with selectedDepartment := "" }) ∧
    List.Sublist (filterData data { fs with selectedProgram := v })
      (filterData data { fs with selectedProgram := "" }) := by
  refine ⟨?_, ?_, ?_⟩ <;>
  · apply List.monotone_filter_right
    intro r hr
    revert hr
    simp only [rowMatches, Bool.and_eq_true, Bool.or_eq_true, beq_iff_eq]
    tauto

end ESPTOC
